import Mathlib

/-!
Verification development for the Life-Under-Inflation simulation engine
(`src/script.js`, mirrored by `algo.js`).

Modelling conventions:
* JavaScript numbers are modelled by rationals (`ℚ`); the engine performs
  only field arithmetic, `max`, and comparisons, so every reachable value
  is rational once the injected random draws are rational.
* All randomness enters through `randomNormal(mean, std)`.  Following the
  design notes of the specification (the sampler must be injectable), the
  embedding abstracts the sampler as a function `Sampler : ℕ → ℚ → ℚ → ℚ`:
  the value of the k-th call to `randomNormal(mean, std)` during a run is
  `g k mean std`.  A call counter is threaded through every function in
  exactly the order the source consumes draws (two per `updateEconomy`
  call; the early bankruptcy exit stops consumption, as in the source).
* The single `NaN` that the source can produce (`surviveCount / runs` at
  `runs = 0`, a 0/0 division) is modelled by `Option ℚ`, `none` standing
  for `NaN`; the JavaScript comparison `NaN > x` is `false`, which the
  selection loop reproduces.
* In-place mutation of a state object is modelled by state passing; the
  aliasing/deep-copy behaviour of `forecastSurvival` is additionally
  modelled explicitly with a reference store (`Store`) below.
-/

/-- The household finance record of `DEFAULT_STATE` in `src/script.js`
(and `state` in `algo.js`): cash, salary, expenses, inflation, invested
capital and the auxiliary happiness metric. -/
structure FinanceState where
  cash : ℚ
  salary : ℚ
  expenses : ℚ
  inflation : ℚ
  investment : ℚ
  happiness : ℚ
deriving DecidableEq, Repr

/-- The hard-coded default starting state of `src/script.js`. -/
def DEFAULT_STATE : FinanceState :=
  { cash := 10000, salary := 3000, expenses := 2500,
    inflation := 1/20, investment := 0, happiness := 100 }

/-- An injected Gaussian sampler: `g k mean std` is the value returned by
the k-th call to `randomNormal(mean, std)` in a run.  Quantifying over all
such functions quantifies over all possible sequences of draws. -/
abbrev Sampler := ℕ → ℚ → ℚ → ℚ

/-- Embedding of `updateEconomy(simState)` from `src/script.js` lines
99-114: add a sampled shock to inflation, clamp at zero, scale expenses by
the clamped inflation, add the sampled market return on investment to
cash, then add the salary-minus-expenses net flow.  The second component
is the advanced sampler call counter (two draws are consumed). -/
def updateEconomy (g : Sampler) (i : ℕ) (simState : FinanceState) :
    FinanceState × ℕ :=
  let inflationShocked := simState.inflation + g i 0 (1/100)
  let inflationClamped := max inflationShocked 0
  let expensesScaled := simState.expenses * (1 + inflationClamped)
  let marketReturn := g (i + 1) (1/20) (1/10)
  let cashAfterMarket := simState.cash + simState.investment * marketReturn
  let cashAfterFlow := cashAfterMarket + simState.salary - expensesScaled
  ({ simState with
      inflation := inflationClamped,
      expenses := expensesScaled,
      cash := cashAfterFlow }, i + 2)

/-- Embedding of `applyAction(simState, action)` from `src/script.js`
lines 126-157.  The `switch` matches five string literals; any other
string (including `null`, handled separately) falls through every case
and leaves the state unchanged, exactly as the source does. -/
def applyAction (simState : FinanceState) (action : String) : FinanceState :=
  if action = "WORK_MORE" then
    { simState with salary := simState.salary * (11/10),
                    happiness := simState.happiness - 5 }
  else if action = "CUT_EXPENSES" then
    { simState with expenses := simState.expenses * (17/20),
                    happiness := simState.happiness - 10 }
  else if action = "INVEST" then
    let investAmount := simState.cash * (3/10)
    { simState with cash := simState.cash - investAmount,
                    investment := simState.investment + investAmount }
  else if action = "UPS KILL" then
    { simState with cash := simState.cash - 1000,
                    salary := simState.salary * (6/5) }
  else
    simState

/-- The canonical action list `ACTIONS` of `src/script.js` lines 217-223
(the fourth entry is spelled `"UPS KILL"` in the source). -/
def ACTIONS : List String :=
  ["WORK_MORE", "CUT_EXPENSES", "INVEST", "UPS KILL", "DO_NOTHING"]

/-- A sampler stub that always returns exactly its mean argument,
ignoring the call index and the standard deviation (the deterministic
test sampler of Scenario C). -/
def meanSampler : Sampler := fun _ mean _ => mean

/-- C4: for every sampler, call counter and input state (any rational
inflation entering the call), the state produced by one `updateEconomy`
call has non-negative inflation, and the expenses field of the output is
the input expenses scaled by the post-shock, post-clamp inflation value
that the output itself carries. -/
theorem updateEconomy_inflation_nonneg_expenses_postclamp
    (g : Sampler) (i : ℕ) (s : FinanceState) :
    0 ≤ ((updateEconomy g i s).1).inflation ∧
    ((updateEconomy g i s).1).expenses =
      s.expenses * (1 + ((updateEconomy g i s).1).inflation) ∧
    ((updateEconomy g i s).1).inflation = max (s.inflation + g i 0 (1/100)) 0 := by
  refine ⟨?_, rfl, rfl⟩
  exact le_max_right _ _

/-- C7: with the Gaussian sampler replaced by one returning exactly its
mean, one `updateEconomy` call on the Scenario C state (any happiness
value) yields inflation 0.05, expenses 2625 and cash 10375, with salary
and investment unchanged. -/
theorem updateEconomy_meanSampler_scenario (i : ℕ) (h : ℚ) :
    updateEconomy meanSampler i
      { cash := 10000, salary := 3000, expenses := 2500,
        inflation := 1/20, investment := 0, happiness := h } =
    ({ cash := 10375, salary := 3000, expenses := 2625,
       inflation := 1/20, investment := 0, happiness := h }, i + 2) := by
  simp only [updateEconomy, meanSampler]
  norm_num

/-- C1: the source `switch` has no default branch, so every action string
outside the five literals it matches leaves the state unchanged and
raises nothing — the code silently no-ops where the specification demands
an InvalidAction error.  Note the matched literal is `"UPS KILL"`; even
the canonical spelling `"UPSKILL"` falls through. -/
theorem applyAction_unknown_silently_noop (s : FinanceState) (action : String)
    (h : action ∉ ACTIONS) : applyAction s action = s := by
  simp only [ACTIONS, List.mem_cons, List.not_mem_nil, or_false] at h
  push_neg at h
  obtain ⟨h1, h2, h3, h4, _⟩ := h
  simp [applyAction, h1, h2, h3, h4]

/-- Witness for C1: the spec-canonical action name `"UPSKILL"` is not in
the source action list, and applying it to the default state is a silent
no-op. -/
theorem applyAction_unknown_silently_noop_witness :
    "UPSKILL" ∉ ACTIONS ∧ applyAction DEFAULT_STATE "UPSKILL" = DEFAULT_STATE :=
  ⟨by decide, applyAction_unknown_silently_noop DEFAULT_STATE "UPSKILL" (by decide)⟩

/-- Helper: the investment field after `applyAction` is unchanged unless
the action is the INVEST literal, in which case `cash * 0.3` is added. -/
theorem applyAction_investment_eq (s : FinanceState) (a : String) :
    (applyAction s a).investment =
      if a = "INVEST" then s.investment + s.cash * (3/10) else s.investment := by
  by_cases h1 : a = "WORK_MORE" <;> by_cases h2 : a = "CUT_EXPENSES" <;>
    by_cases h3 : a = "INVEST" <;> by_cases h4 : a = "UPS KILL" <;>
    simp [applyAction, h1, h2, h3, h4]

/-- C9 counterexample: from a state with negative cash and zero (hence
non-negative) investment, the INVEST action moves a negative amount,
leaving investment strictly negative — so investment is not only-increased
and non-negativity of investment alone is not preserved. -/
theorem applyAction_invest_negative_counterexample :
    (0 : ℚ) ≤ ({ cash := -1000, salary := 3000, expenses := 2500,
                 inflation := 1/20, investment := 0,
                 happiness := 100 : FinanceState }).investment ∧
    (applyAction
      { cash := -1000, salary := 3000, expenses := 2500,
        inflation := 1/20, investment := 0, happiness := 100 }
      "INVEST").investment < 0 := by
  constructor
  · norm_num
  · rw [applyAction_investment_eq, if_pos rfl]
    norm_num

/-- C9 amended: the investment field is changed by no operation except
the INVEST action (`updateEconomy` and every other action kind leave it
exactly unchanged), and INVEST adds `cash * 0.3`; consequently, when the
incoming cash is also non-negative, a non-negative investment stays
non-negative under every action and under `updateEconomy`. -/
theorem investment_change_characterization
    (g : Sampler) (i : ℕ) (s : FinanceState) (action : String) :
    ((updateEconomy g i s).1).investment = s.investment ∧
    (action ≠ "INVEST" → (applyAction s action).investment = s.investment) ∧
    (applyAction s "INVEST").investment = s.investment + s.cash * (3/10) ∧
    (0 ≤ s.cash → 0 ≤ s.investment → 0 ≤ (applyAction s action).investment) := by
  refine ⟨rfl, ?_, ?_, ?_⟩
  · intro hne
    rw [applyAction_investment_eq, if_neg hne]
  · rw [applyAction_investment_eq, if_pos rfl]
  · intro hcash hinv
    rw [applyAction_investment_eq]
    split
    · have : (0:ℚ) ≤ s.cash * (3/10) := by positivity
      linarith
    · exact hinv

/-- Witness for C9 amended: instantiated at the default state (cash 10000,
investment 0) and the INVEST action, all hypotheses discharged concretely. -/
theorem investment_change_characterization_witness :
    (0 : ℚ) ≤ (applyAction DEFAULT_STATE "INVEST").investment :=
  (investment_change_characterization meanSampler 0 DEFAULT_STATE "INVEST").2.2.2
    (by norm_num [DEFAULT_STATE]) (by norm_num [DEFAULT_STATE])

/-- The record returned by `forecastSurvival` (`src/script.js` lines
195-198).  `survivalProbability` is `none` exactly when the source would
produce the `NaN` of the 0/0 division at `runs = 0`. -/
structure ForecastResult where
  survivalProbability : Option ℚ
  expectedCash : ℚ
deriving DecidableEq, Repr

/-- Embedding of the inner month loop of `forecastSurvival` (lines
184-187): up to `horizon` successive `updateEconomy` steps, stopping
early the moment cash drops to zero or below.  Returns the final scratch
state and the advanced sampler counter. -/
def forecastSteps (g : Sampler) : ℕ → FinanceState → ℕ → FinanceState × ℕ
  | 0, s, i => (s, i)
  | m + 1, s, i =>
    let p := updateEconomy g i s
    if p.1.cash ≤ 0 then p else forecastSteps g m p.1 p.2

/-- Embedding of the trial loop of `forecastSurvival` (lines 176-193):
each trial deep-copies the input state (value copy), applies the action
once, runs the month loop, and if the final cash is strictly positive
increments the survivor count and accumulates the ending cash.  Returns
(surviveCount, totalCash, counter). -/
def forecastTrials (g : Sampler) (currentState : FinanceState) (action : String)
    (horizon : ℕ) : ℕ → ℕ → ℕ → ℚ → ℕ × ℚ × ℕ
  | 0, i, surviveCount, totalCash => (surviveCount, totalCash, i)
  | n + 1, i, surviveCount, totalCash =>
    let simState := applyAction currentState action
    let p := forecastSteps g horizon simState i
    if p.1.cash > 0 then
      forecastTrials g currentState action horizon n p.2 (surviveCount + 1)
        (totalCash + p.1.cash)
    else
      forecastTrials g currentState action horizon n p.2 surviveCount totalCash

/-- Embedding of `forecastSurvival(currentState, action, MONTE_CARLO_RUNS,
FORECAST_MONTHS)` (lines 167-199).  `survivalProbability` is
`surviveCount / runs`, which at `runs = 0` is the 0/0 `NaN` modelled by
`none`; `expectedCash` is `totalCash / (surviveCount || 1)`. -/
def forecastSurvival (g : Sampler) (i : ℕ) (currentState : FinanceState)
    (action : String) (runs horizon : ℕ) : ForecastResult × ℕ :=
  let t := forecastTrials g currentState action horizon runs i 0 0
  ({ survivalProbability :=
       if runs = 0 then none else some ((t.1 : ℚ) / (runs : ℚ)),
     expectedCash := t.2.1 / (if t.1 = 0 then 1 else (t.1 : ℚ)) }, t.2.2)

/-- C2: at `runs = 0` the source raises nothing: the trial loop body never
executes and the function returns normally, with a NaN survival
probability (the 0/0 division, modelled by `none`) and expected cash 0 —
where the specification demands an InvalidConfiguration error. -/
theorem forecastSurvival_zero_runs_returns
    (g : Sampler) (i : ℕ) (s : FinanceState) (action : String) (horizon : ℕ) :
    forecastSurvival g i s action 0 horizon =
      ({ survivalProbability := none, expectedCash := 0 }, i) := by
  simp [forecastSurvival, forecastTrials]

/-- Helper: the survivor count of the trial loop never drops below its
accumulator argument. -/
theorem forecastTrials_count_mono (g : Sampler) (s : FinanceState)
    (action : String) (horizon : ℕ) :
    ∀ n i sc tc, sc ≤ (forecastTrials g s action horizon n i sc tc).1 := by
  intro n
  induction n with
  | zero => intro i sc tc; exact le_refl _
  | succ m ih =>
    intro i sc tc
    rw [forecastTrials]
    split
    · exact le_trans (Nat.le_succ sc) (ih _ _ _)
    · exact ih _ _ _

/-- Helper: the survivor count of the trial loop exceeds its accumulator
argument by at most the number of remaining trials. -/
theorem forecastTrials_count_le (g : Sampler) (s : FinanceState)
    (action : String) (horizon : ℕ) :
    ∀ n i sc tc, (forecastTrials g s action horizon n i sc tc).1 ≤ sc + n := by
  intro n
  induction n with
  | zero => intro i sc tc; rw [forecastTrials]; exact Nat.le_add_right sc 0
  | succ m ih =>
    intro i sc tc
    rw [forecastTrials]
    split
    · exact le_trans (ih _ _ _) (by omega)
    · exact le_trans (ih _ _ _) (by omega)

/-- Helper: if the trial loop ends with the same survivor count it
started with, the accumulated cash is also unchanged (cash is only added
together with a count increment). -/
theorem forecastTrials_cash_of_count_eq (g : Sampler) (s : FinanceState)
    (action : String) (horizon : ℕ) :
    ∀ n i sc tc, (forecastTrials g s action horizon n i sc tc).1 = sc →
      (forecastTrials g s action horizon n i sc tc).2.1 = tc := by
  intro n
  induction n with
  | zero => intro i sc tc _; rw [forecastTrials]
  | succ m ih =>
    intro i sc tc hcount
    rw [forecastTrials] at hcount ⊢
    by_cases hc : (forecastSteps g horizon (applyAction s action) i).1.cash > 0
    · rw [if_pos hc] at hcount ⊢
      exfalso
      have h1 := forecastTrials_count_mono g s action horizon m
        (forecastSteps g horizon (applyAction s action) i).2 (sc + 1)
        (tc + (forecastSteps g horizon (applyAction s action) i).1.cash)
      rw [hcount] at h1
      omega
    · rw [if_neg hc] at hcount ⊢
      exact ih _ _ _ hcount

/-- C3: for every input state, action, sampler, horizon and `runs > 0`,
the forecast result is well-defined (no NaN), its survival probability
lies in [0, 1], and when the survivor count is zero the expected cash is
exactly 0 (a finite rational), thanks to the `surviveCount || 1` guard. -/
theorem forecastSurvival_bounds (g : Sampler) (i : ℕ) (s : FinanceState)
    (action : String) (runs horizon : ℕ) (hruns : 0 < runs) :
    (∃ p : ℚ, (forecastSurvival g i s action runs horizon).1.survivalProbability
        = some p ∧ 0 ≤ p ∧ p ≤ 1) ∧
    ((forecastTrials g s action horizon runs i 0 0).1 = 0 →
      (forecastSurvival g i s action runs horizon).1.expectedCash = 0) := by
  constructor
  · refine ⟨((forecastTrials g s action horizon runs i 0 0).1 : ℚ) / (runs : ℚ),
      ?_, ?_, ?_⟩
    · simp [forecastSurvival, Nat.pos_iff_ne_zero.mp hruns]
    · positivity
    · rw [div_le_one (by exact_mod_cast hruns)]
      exact_mod_cast le_trans
        (forecastTrials_count_le g s action horizon runs i 0 0) (by omega)
  · intro hzero
    have hcash := forecastTrials_cash_of_count_eq g s action horizon runs i 0 0 hzero
    simp [forecastSurvival, hzero, hcash]

/-- Witness for C3: instantiated at the all-zero sampler, the default
state, the DO_NOTHING action and a single run. -/
theorem forecastSurvival_bounds_witness :
    (∃ p : ℚ, (forecastSurvival (fun _ _ _ => 0) 0 DEFAULT_STATE "DO_NOTHING"
        1 6).1.survivalProbability = some p ∧ 0 ≤ p ∧ p ≤ 1) ∧
    ((forecastTrials (fun _ _ _ => 0) DEFAULT_STATE "DO_NOTHING" 6 1 0 0 0).1 = 0 →
      (forecastSurvival (fun _ _ _ => 0) 0 DEFAULT_STATE "DO_NOTHING"
        1 6).1.expectedCash = 0) :=
  forecastSurvival_bounds (fun _ _ _ => 0) 0 DEFAULT_STATE "DO_NOTHING" 1 6
    (by decide)

/-- Embedding of `calculateUtility(result)` (`src/script.js` lines
206-210): `0.6 * survivalProbability + 0.4 * (expectedCash / 10000)`.
A NaN survival probability (modelled `none`) propagates to the utility. -/
def calculateUtility (result : ForecastResult) : Option ℚ :=
  result.survivalProbability.map fun p =>
    (3/5) * p + (2/5) * (result.expectedCash / 10000)

/-- The JavaScript comparison `utility > bestScore` of the selection loop,
for a non-NaN utility `u`: `bestScore` is `none` while still the initial
`-Infinity` sentinel, and every finite value exceeds it. -/
def beatsScore (u : ℚ) : Option ℚ → Bool
  | none => true
  | some b => decide (b < u)

/-- Embedding of the `for (let action of actions)` loop of
`chooseBestAction` (`src/script.js` lines 230-237): forecast, score, and
replace the incumbent only when the utility is strictly greater (a NaN
utility, possible only at `runs = 0`, never wins a comparison). -/
def chooseLoop (g : Sampler) (s : FinanceState) (runs : ℕ) :
    List String → ℕ → Option String → Option ℚ → Option String × ℕ
  | [], i, best, _ => (best, i)
  | a :: rest, i, best, bestScore =>
    let p := forecastSurvival g i s a runs 6
    match calculateUtility p.1 with
    | none => chooseLoop g s runs rest p.2 best bestScore
    | some u =>
      if beatsScore u bestScore then chooseLoop g s runs rest p.2 (some a) (some u)
      else chooseLoop g s runs rest p.2 best bestScore

/-- Embedding of `chooseBestAction(currentState, monteCarloRuns)`
(`src/script.js` lines 225-240): run the selection loop over `ACTIONS`
starting from the null incumbent and the `-Infinity` sentinel. -/
def chooseBestAction (g : Sampler) (i : ℕ) (currentState : FinanceState)
    (runs : ℕ) : Option String × ℕ :=
  chooseLoop g currentState runs ACTIONS i none none

/-- The utilities computed by the selection loop, listed in candidate
order with the sampler counter threaded exactly as in `chooseLoop`. -/
def scoresFrom (g : Sampler) (s : FinanceState) (runs : ℕ) :
    List String → ℕ → List (Option ℚ)
  | [], _ => []
  | a :: rest, i =>
    let p := forecastSurvival g i s a runs 6
    calculateUtility p.1 :: scoresFrom g s runs rest p.2

/-- The pure selection behind `chooseLoop`, operating on the precomputed
(action, utility) pairs. -/
def selectFrom : List (String × Option ℚ) → Option String → Option ℚ → Option String
  | [], best, _ => best
  | q :: rest, best, bestScore =>
    match q.2 with
    | none => selectFrom rest best bestScore
    | some uq =>
      if beatsScore uq bestScore then selectFrom rest (some q.1) (some uq)
      else selectFrom rest best bestScore

/-- The specification of the tie-break: `a` with utility `u` occurs in
the scored list, every earlier candidate scores strictly below `u`, and
every later candidate scores at most `u`. -/
def IsFirstMax (l : List (String × ℚ)) (a : String) (u : ℚ) : Prop :=
  ∃ l1 l2, l = l1 ++ (a, u) :: l2 ∧
    (∀ p ∈ l1, p.2 < u) ∧ (∀ p ∈ l2, p.2 ≤ u)

/-- Helper: the selection loop is the pure selection applied to the
candidate/score pairs. -/
theorem chooseLoop_eq_selectFrom (g : Sampler) (s : FinanceState) (runs : ℕ) :
    ∀ (l : List String) (i : ℕ) (best : Option String) (bestScore : Option ℚ),
      (chooseLoop g s runs l i best bestScore).1 =
        selectFrom (l.zip (scoresFrom g s runs l i)) best bestScore := by
  intro l
  induction l with
  | nil => intro i best bestScore; rfl
  | cons a rest ih =>
    intro i best bestScore
    cases hu : calculateUtility (forecastSurvival g i s a runs 6).1 with
    | none =>
      simp only [chooseLoop, scoresFrom, List.zip_cons_cons, selectFrom, hu]
      exact ih _ _ _
    | some u =>
      simp only [chooseLoop, scoresFrom, List.zip_cons_cons, selectFrom, hu]
      by_cases hb : beatsScore u bestScore = true
      · simp only [hb, if_true]
        exact ih _ _ _
      · simp only [hb, if_false, Bool.false_eq_true]
        exact ih _ _ _

/-- Helper: starting from an incumbent `(a, u)`, the pure selection over
all-finite scores returns the first maximum of the virtual candidate
list `(a, u) :: l`. -/
theorem selectFrom_acc_firstMax :
    ∀ (l : List (String × ℚ)) (a : String) (u : ℚ),
      ∃ c v, selectFrom (l.map fun p => (p.1, some p.2)) (some a) (some u)
          = some c ∧ IsFirstMax ((a, u) :: l) c v := by
  intro l
  induction l with
  | nil =>
    intro a u
    exact ⟨a, u, rfl, [], [], rfl, by simp, by simp⟩
  | cons q rest ih =>
    intro a u
    obtain ⟨b, w⟩ := q
    by_cases hu : u < w
    · have hbranch : selectFrom (((b, w) :: rest).map fun p => (p.1, some p.2))
          (some a) (some u)
          = selectFrom (rest.map fun p => (p.1, some p.2)) (some b) (some w) := by
        simp [selectFrom, beatsScore, hu]
      obtain ⟨c, v, hsel, l1, l2, heq, hlt, hle⟩ := ih b w
      refine ⟨c, v, hbranch.trans hsel, ?_⟩
      have hwv : w ≤ v := by
        cases l1 with
        | nil =>
          rw [List.nil_append] at heq
          injection heq with h1 _
          injection h1 with _ h2
          exact le_of_eq h2
        | cons q1 l1t =>
          rw [List.cons_append] at heq
          injection heq with h1 _
          have hq1 := hlt q1 (List.mem_cons_self q1 l1t)
          rw [← h1] at hq1
          exact hq1.le
      refine ⟨(a, u) :: l1, l2, by rw [List.cons_append, heq], ?_, hle⟩
      intro p hp
      rcases List.mem_cons.mp hp with rfl | hp1
      · exact lt_of_lt_of_le hu hwv
      · exact hlt p hp1
    · have hbranch : selectFrom (((b, w) :: rest).map fun p => (p.1, some p.2))
          (some a) (some u)
          = selectFrom (rest.map fun p => (p.1, some p.2)) (some a) (some u) := by
        simp [selectFrom, beatsScore, hu]
      have hwu : w ≤ u := not_lt.mp hu
      obtain ⟨c, v, hsel, l1, l2, heq, hlt, hle⟩ := ih a u
      refine ⟨c, v, hbranch.trans hsel, ?_⟩
      cases l1 with
      | nil =>
        rw [List.nil_append] at heq
        injection heq with h1 h2
        injection h1 with hca hvu
        subst hca
        subst hvu
        refine ⟨[], (b, w) :: l2, ?_, by simp, ?_⟩
        · rw [List.nil_append, ← h2]
        · intro p hp
          rcases List.mem_cons.mp hp with rfl | hp2
          · exact hwu
          · exact hle p hp2
      | cons q1 l1t =>
        rw [List.cons_append] at heq
        injection heq with h1 h2
        have huv : u < v := by
          have hq1 := hlt q1 (List.mem_cons_self q1 l1t)
          rw [← h1] at hq1
          exact hq1
        refine ⟨(a, u) :: (b, w) :: l1t, l2, ?_, ?_, hle⟩
        · rw [List.cons_append, List.cons_append, h2]
        · intro p hp
          rcases List.mem_cons.mp hp with rfl | hp1
          · exact huv
          rcases List.mem_cons.mp hp1 with rfl | hp2
          · exact lt_of_le_of_lt hwu huv
          · exact hlt p (List.mem_cons_of_mem q1 hp2)

/-- Helper: with at least one Monte Carlo run, every candidate utility
the selection loop computes is a finite rational (never the NaN case). -/
theorem scoresFrom_eq_map_some (g : Sampler) (s : FinanceState) (runs : ℕ)
    (hruns : 0 < runs) :
    ∀ (l : List String) (i : ℕ), ∃ qs : List ℚ,
      scoresFrom g s runs l i = qs.map some ∧ qs.length = l.length := by
  intro l
  induction l with
  | nil => intro i; exact ⟨[], rfl, rfl⟩
  | cons a rest ih =>
    intro i
    obtain ⟨u, hu⟩ : ∃ u, calculateUtility (forecastSurvival g i s a runs 6).1
        = some u := by
      simp [forecastSurvival, calculateUtility, Nat.pos_iff_ne_zero.mp hruns]
    obtain ⟨qs, hqs, hlen⟩ := ih (forecastSurvival g i s a runs 6).2
    refine ⟨u :: qs, ?_, by simp [hlen]⟩
    simp only [scoresFrom, hu, hqs, List.map_cons]

/-- Helper: over a non-empty list of all-finite scores, the pure
selection starting from the null incumbent returns the first maximum. -/
theorem selectFrom_none_firstMax (l : List (String × ℚ)) (hne : l ≠ []) :
    ∃ c v, selectFrom (l.map fun p => (p.1, some p.2)) none none = some c ∧
      IsFirstMax l c v := by
  cases l with
  | nil => exact absurd rfl hne
  | cons q rest =>
    obtain ⟨b, w⟩ := q
    have hbranch : selectFrom (((b, w) :: rest).map fun p => (p.1, some p.2))
        none none = selectFrom (rest.map fun p => (p.1, some p.2))
          (some b) (some w) := by
      simp [selectFrom, beatsScore]
    obtain ⟨c, v, hsel, hmax⟩ := selectFrom_acc_firstMax rest b w
    exact ⟨c, v, hbranch.trans hsel, hmax⟩

/-- Helper: the zip of the action list with lifted scores is the lifted
zip of the action list with the scores. -/
theorem zip_map_some (l : List String) (qs : List ℚ) :
    l.zip (qs.map some) = (l.zip qs).map fun p => (p.1, some p.2) := by
  rw [List.zip_map_right]
  rfl

/-- C6: `chooseBestAction` evaluates the candidates in the fixed order of
`ACTIONS` (WORK_MORE, CUT_EXPENSES, INVEST, UPS KILL, DO_NOTHING); with
at least one run every utility is a finite value, and the returned action
is the first maximum of the scored list: all earlier candidates score
strictly below it, all later ones at most equal — so on an exact tie the
earliest-listed action wins, a later one replacing the incumbent only on
strictly greater utility. -/
theorem chooseBestAction_first_max_tiebreak (g : Sampler) (i : ℕ)
    (s : FinanceState) (runs : ℕ) (hruns : 0 < runs) :
    ∃ qs : List ℚ, scoresFrom g s runs ACTIONS i = qs.map some ∧
      ∃ c v, (chooseBestAction g i s runs).1 = some c ∧
        IsFirstMax (ACTIONS.zip qs) c v := by
  obtain ⟨qs, hqs, hlen⟩ := scoresFrom_eq_map_some g s runs hruns ACTIONS i
  refine ⟨qs, hqs, ?_⟩
  have hne : ACTIONS.zip qs ≠ [] := by
    have hl : (ACTIONS.zip qs).length = 5 := by
      rw [List.length_zip, hlen]; rfl
    intro hcon
    rw [hcon] at hl
    simp at hl
  obtain ⟨c, v, hsel, hmax⟩ := selectFrom_none_firstMax (ACTIONS.zip qs) hne
  refine ⟨c, v, ?_, hmax⟩
  rw [chooseBestAction, chooseLoop_eq_selectFrom, hqs, zip_map_some]
  exact hsel

/-- Witness for C6: instantiated at the all-zero sampler, the default
state and a single run. -/
theorem chooseBestAction_first_max_tiebreak_witness :
    ∃ qs : List ℚ,
      scoresFrom (fun _ _ _ => 0) DEFAULT_STATE 1 ACTIONS 0 = qs.map some ∧
      ∃ c v, (chooseBestAction (fun _ _ _ => 0) 0 DEFAULT_STATE 1).1 = some c ∧
        IsFirstMax (ACTIONS.zip qs) c v :=
  chooseBestAction_first_max_tiebreak (fun _ _ _ => 0) 0 DEFAULT_STATE 1 (by decide)

/-- C10: with at least one run, `chooseBestAction` never returns the null
incumbent: every candidate utility is a finite value (so the first
candidate always beats the initial minus-infinity sentinel) and the
returned action is a member of the five-action enumeration. -/
theorem chooseBestAction_total_mem (g : Sampler) (i : ℕ) (s : FinanceState)
    (runs : ℕ) (hruns : 0 < runs) :
    ∃ a, (chooseBestAction g i s runs).1 = some a ∧ a ∈ ACTIONS ∧
      ∀ u ∈ scoresFrom g s runs ACTIONS i, u.isSome := by
  obtain ⟨qs, hqs, hlen⟩ := scoresFrom_eq_map_some g s runs hruns ACTIONS i
  have hne : ACTIONS.zip qs ≠ [] := by
    have hl : (ACTIONS.zip qs).length = 5 := by
      rw [List.length_zip, hlen]; rfl
    intro hcon
    rw [hcon] at hl
    simp at hl
  obtain ⟨c, v, hsel, l1, l2, heq, _, _⟩ := selectFrom_none_firstMax (ACTIONS.zip qs) hne
  refine ⟨c, ?_, ?_, ?_⟩
  · rw [chooseBestAction, chooseLoop_eq_selectFrom, hqs, zip_map_some]
    exact hsel
  · have hmem : (c, v) ∈ ACTIONS.zip qs := by
      rw [heq]
      exact List.mem_append_right l1 (List.mem_cons_self _ _)
    exact (List.of_mem_zip hmem).1
  · intro u hu
    rw [hqs] at hu
    obtain ⟨q, _, rfl⟩ := List.mem_map.mp hu
    rfl

/-- Witness for C10: instantiated at the all-zero sampler, the default
state and a single run. -/
theorem chooseBestAction_total_mem_witness :
    ∃ a, (chooseBestAction (fun _ _ _ => 0) 0 DEFAULT_STATE 1).1 = some a ∧
      a ∈ ACTIONS ∧
      ∀ u ∈ scoresFrom (fun _ _ _ => 0) DEFAULT_STATE 1 ACTIONS 0, u.isSome :=
  chooseBestAction_total_mem (fun _ _ _ => 0) 0 DEFAULT_STATE 1 (by decide)

/-- The per-month record pushed to `history` by `runSimulation`
(`src/script.js` lines 267-276).  The action is `Option String` because
the incumbent returned by `chooseBestAction` is `null` when no utility
ever won a comparison (possible only at `monteCarloRuns = 0`). -/
structure MonthSnapshot where
  month : ℕ
  action : Option String
  cash : ℚ
  salary : ℚ
  expenses : ℚ
  inflation : ℚ
  investment : ℚ
  happiness : ℚ
deriving DecidableEq, Repr

/-- Applying the selector output: `applyAction(state, null)` matches no
`switch` case and is a no-op, as in the source. -/
def applyActionChosen (s : FinanceState) : Option String → FinanceState
  | none => s
  | some a => applyAction s a

/-- Embedding of the month loop of `runSimulation` (`src/script.js`
lines 258-280): each month select the best action against the current
state, apply it, advance the economy, push a snapshot of the post-update
state, and break out of the loop if cash has dropped to zero or below. -/
def runSimLoop (g : Sampler) (runs : ℕ) :
    ℕ → ℕ → ℕ → FinanceState → List MonthSnapshot
  | 0, _, _, _ => []
  | remaining + 1, month, i, state =>
    let c := chooseBestAction g i state runs
    let s1 := applyActionChosen state c.1
    let p := updateEconomy g c.2 s1
    let snap : MonthSnapshot :=
      { month := month, action := c.1, cash := p.1.cash, salary := p.1.salary,
        expenses := p.1.expenses, inflation := p.1.inflation,
        investment := p.1.investment, happiness := p.1.happiness }
    if p.1.cash ≤ 0 then [snap]
    else snap :: runSimLoop g runs remaining (month + 1) p.2 p.1

/-- Embedding of `runSimulation({months, monteCarloRuns, initialState})`
(`src/script.js` lines 248-283): clone the initial state (a value copy)
and run the month loop from month 1.  Source defaults are `months = 24`,
`monteCarloRuns = 100`, `initialState = DEFAULT_STATE`. -/
def runSimulation (g : Sampler) (months runs : ℕ)
    (initialState : FinanceState) : List MonthSnapshot :=
  runSimLoop g runs months 1 0 initialState

/-- Helper: the month loop emits at most one snapshot per remaining
month. -/
theorem runSimLoop_length_le (g : Sampler) (runs : ℕ) :
    ∀ (remaining month i : ℕ) (state : FinanceState),
      (runSimLoop g runs remaining month i state).length ≤ remaining := by
  intro remaining
  induction remaining with
  | zero => intro month i state; rw [runSimLoop]; exact le_refl 0
  | succ m ih =>
    intro month i state
    rw [runSimLoop]
    split
    · simp
    · simpa using ih _ _ _

/-- Helper: in any history the month loop emits, a snapshot with
non-positive cash can only be the final one. -/
theorem runSimLoop_bankrupt_last (g : Sampler) (runs : ℕ) :
    ∀ (remaining month i : ℕ) (state : FinanceState) (j : ℕ)
      (snap : MonthSnapshot),
      (runSimLoop g runs remaining month i state)[j]? = some snap →
      snap.cash ≤ 0 →
      j + 1 = (runSimLoop g runs remaining month i state).length := by
  intro remaining
  induction remaining with
  | zero =>
    intro month i state j snap hsnap
    rw [runSimLoop] at hsnap
    simp at hsnap
  | succ m ih =>
    intro month i state j snap hsnap hcash
    rw [runSimLoop] at hsnap ⊢
    by_cases hb : (updateEconomy g (chooseBestAction g i state runs).2
        (applyActionChosen state (chooseBestAction g i state runs).1)).1.cash ≤ 0
    · rw [if_pos hb] at hsnap ⊢
      cases j with
      | zero => simp
      | succ jj => simp at hsnap
    · rw [if_neg hb] at hsnap ⊢
      cases j with
      | zero =>
        rw [List.getElem?_cons_zero, Option.some.injEq] at hsnap
        rw [← hsnap] at hcash
        exact absurd hcash hb
      | succ jj =>
        rw [List.getElem?_cons_succ] at hsnap
        rw [List.length_cons]
        have hlast := ih _ _ _ jj snap hsnap hcash
        omega

/-- C5: for every sampler, run count, month budget and starting state,
the history returned by `runSimulation` has length at most `months`, and
any snapshot whose cash is non-positive is the last element — bankruptcy
ends the run immediately after its snapshot is appended. -/
theorem runSimulation_length_le_bankrupt_last (g : Sampler)
    (months runs : ℕ) (s0 : FinanceState) :
    (runSimulation g months runs s0).length ≤ months ∧
    ∀ (j : ℕ) (snap : MonthSnapshot),
      (runSimulation g months runs s0)[j]? = some snap → snap.cash ≤ 0 →
        j + 1 = (runSimulation g months runs s0).length :=
  ⟨runSimLoop_length_le g runs months 1 0 s0,
   fun j snap hs hc => runSimLoop_bankrupt_last g runs months 1 0 s0 j snap hs hc⟩

/-- The all-zero sampler used by concrete witness evaluations. -/
def zeroSampler : Sampler := fun _ _ _ => 0

/-- A starting state that is already bankrupt, with zero salary,
expenses and inflation, so one month suffices to end the run. -/
def bankruptState : FinanceState :=
  { cash := -5, salary := 0, expenses := 0, inflation := 0,
    investment := 0, happiness := 0 }

/-- Helper: evaluation of `applyAction` at the WORK_MORE literal. -/
theorem applyAction_eval_work (s : FinanceState) :
    applyAction s "WORK_MORE" =
      { s with salary := s.salary * (11/10), happiness := s.happiness - 5 } := by
  simp only [applyAction]
  simp only [if_true]

/-- Helper: evaluation of `applyAction` at the CUT_EXPENSES literal. -/
theorem applyAction_eval_cut (s : FinanceState) :
    applyAction s "CUT_EXPENSES" =
      { s with expenses := s.expenses * (17/20),
               happiness := s.happiness - 10 } := by
  simp only [applyAction]
  rw [if_neg (by decide)]
  simp only [if_true]

/-- Helper: evaluation of `applyAction` at the INVEST literal. -/
theorem applyAction_eval_invest (s : FinanceState) :
    applyAction s "INVEST" =
      { s with cash := s.cash - s.cash * (3/10),
               investment := s.investment + s.cash * (3/10) } := by
  simp only [applyAction]
  rw [if_neg (by decide), if_neg (by decide)]
  simp only [if_true]

/-- Helper: evaluation of `applyAction` at the UPS KILL literal. -/
theorem applyAction_eval_ups (s : FinanceState) :
    applyAction s "UPS KILL" =
      { s with cash := s.cash - 1000, salary := s.salary * (6/5) } := by
  simp only [applyAction]
  rw [if_neg (by decide), if_neg (by decide), if_neg (by decide)]
  simp only [if_true]

/-- Helper: evaluation of `applyAction` at the DO_NOTHING literal. -/
theorem applyAction_eval_nothing (s : FinanceState) :
    applyAction s "DO_NOTHING" = s := by
  simp only [applyAction]
  rw [if_neg (by decide), if_neg (by decide), if_neg (by decide),
    if_neg (by decide)]

/-- Helper: under the all-zero sampler, a state with zero salary,
expenses and inflation is a fixed point of the economy step. -/
theorem updateEconomy_zeroSampler_flat (i : ℕ) (c inv hap : ℚ) :
    updateEconomy zeroSampler i ⟨c, 0, 0, 0, inv, hap⟩
      = (⟨c, 0, 0, 0, inv, hap⟩, i + 2) := by
  norm_num [updateEconomy, zeroSampler]

/-- Helper: the forecast month loop stops after its first step when that
step already leaves non-positive cash. -/
theorem forecastSteps_stop (g : Sampler) (m i : ℕ) (s : FinanceState)
    (hm : 0 < m) (hc : (updateEconomy g i s).1.cash ≤ 0) :
    forecastSteps g m s i = updateEconomy g i s := by
  cases m with
  | zero => exact absurd hm (lt_irrefl 0)
  | succ mm =>
    simp only [forecastSteps]
    exact if_pos hc

/-- Helper: a single forecast trial from the bankrupt start never
survives, whatever the action, so the survivor count and cash sum stay
zero and exactly two draws are consumed. -/
theorem forecastSurvival_bankrupt_eval (i : ℕ) (a : String) (c inv hap : ℚ)
    (hA : applyAction bankruptState a = ⟨c, 0, 0, 0, inv, hap⟩) (hc : c ≤ 0) :
    forecastSurvival zeroSampler i bankruptState a 1 6
      = ({ survivalProbability := some 0, expectedCash := 0 }, i + 2) := by
  have hupd : updateEconomy zeroSampler i (⟨c, 0, 0, 0, inv, hap⟩ : FinanceState)
      = (⟨c, 0, 0, 0, inv, hap⟩, i + 2) := updateEconomy_zeroSampler_flat i c inv hap
  have hsteps : forecastSteps zeroSampler 6 (applyAction bankruptState a) i
      = (⟨c, 0, 0, 0, inv, hap⟩, i + 2) := by
    rw [hA, forecastSteps_stop zeroSampler 6 i _ (by norm_num)
      (by rw [hupd]; exact hc)]
    exact hupd
  have htrials : forecastTrials zeroSampler bankruptState a 6 1 i 0 0
      = (0, 0, i + 2) := by
    show forecastTrials zeroSampler bankruptState a 6 (0 + 1) i 0 0 = (0, 0, i + 2)
    simp only [forecastTrials, hsteps]
    rw [if_neg (not_lt.mpr hc)]
  simp only [forecastSurvival, htrials]
  norm_num

/-- Helper: a finite utility always beats the initial sentinel. -/
theorem beatsScore_none_eval (u : ℚ) : beatsScore u none = true := rfl

/-- Helper: a utility of zero does not beat an incumbent score of zero
(strict comparison), so the earlier candidate is kept. -/
theorem beatsScore_zero_zero : beatsScore 0 (some 0) = false := by
  simp only [beatsScore]
  rw [decide_eq_false (by norm_num)]

/-- Helper: one unfolding step of the selection loop when the forecast
and utility of the head candidate are known. -/
theorem chooseLoop_cons_eval (g : Sampler) (s : FinanceState) (runs : ℕ)
    (a : String) (rest : List String) (i iNext : ℕ) (best : Option String)
    (bs : Option ℚ) (r : ForecastResult) (u : ℚ)
    (hf : forecastSurvival g i s a runs 6 = (r, iNext))
    (hu : calculateUtility r = some u) :
    chooseLoop g s runs (a :: rest) i best bs =
      if beatsScore u bs then chooseLoop g s runs rest iNext (some a) (some u)
      else chooseLoop g s runs rest iNext best bs := by
  simp only [chooseLoop, hf, hu]

/-- Helper: from the bankrupt start with one run, the selector scores
every action at utility 0 and the tie-break returns the first candidate,
after ten sampler draws. -/
theorem chooseBestAction_bankrupt_eval :
    chooseBestAction zeroSampler 0 bankruptState 1 = (some "WORK_MORE", 10) := by
  have hcu : calculateUtility { survivalProbability := some 0, expectedCash := 0 }
      = some 0 := by
    norm_num [calculateUtility]
  have hW : ∀ i, forecastSurvival zeroSampler i bankruptState "WORK_MORE" 1 6
      = ({ survivalProbability := some 0, expectedCash := 0 }, i + 2) :=
    fun i => forecastSurvival_bankrupt_eval i _ (-5) 0 (-5)
      (by rw [applyAction_eval_work]; norm_num [bankruptState]) (by norm_num)
  have hC : ∀ i, forecastSurvival zeroSampler i bankruptState "CUT_EXPENSES" 1 6
      = ({ survivalProbability := some 0, expectedCash := 0 }, i + 2) :=
    fun i => forecastSurvival_bankrupt_eval i _ (-5) 0 (-10)
      (by rw [applyAction_eval_cut]; norm_num [bankruptState]) (by norm_num)
  have hI : ∀ i, forecastSurvival zeroSampler i bankruptState "INVEST" 1 6
      = ({ survivalProbability := some 0, expectedCash := 0 }, i + 2) :=
    fun i => forecastSurvival_bankrupt_eval i _ (-7/2) (-3/2) 0
      (by rw [applyAction_eval_invest]; norm_num [bankruptState]) (by norm_num)
  have hU : ∀ i, forecastSurvival zeroSampler i bankruptState "UPS KILL" 1 6
      = ({ survivalProbability := some 0, expectedCash := 0 }, i + 2) :=
    fun i => forecastSurvival_bankrupt_eval i _ (-1005) 0 0
      (by rw [applyAction_eval_ups]; norm_num [bankruptState]) (by norm_num)
  have hD : ∀ i, forecastSurvival zeroSampler i bankruptState "DO_NOTHING" 1 6
      = ({ survivalProbability := some 0, expectedCash := 0 }, i + 2) :=
    fun i => forecastSurvival_bankrupt_eval i _ (-5) 0 0
      (by rw [applyAction_eval_nothing]; norm_num [bankruptState]) (by norm_num)
  simp only [chooseBestAction, ACTIONS]
  rw [chooseLoop_cons_eval _ _ _ _ _ _ _ _ _ _ _ (hW 0) hcu]
  norm_num [beatsScore_none_eval]
  rw [chooseLoop_cons_eval _ _ _ _ _ _ _ _ _ _ _ (hC 2) hcu]
  norm_num [beatsScore_zero_zero]
  rw [chooseLoop_cons_eval _ _ _ _ _ _ _ _ _ _ _ (hI 4) hcu]
  norm_num [beatsScore_zero_zero]
  rw [chooseLoop_cons_eval _ _ _ _ _ _ _ _ _ _ _ (hU 6) hcu]
  norm_num [beatsScore_zero_zero]
  rw [chooseLoop_cons_eval _ _ _ _ _ _ _ _ _ _ _ (hD 8) hcu]
  norm_num [beatsScore_zero_zero]
  rfl

/-- Helper: one unfolding step of the month loop when the selector
output is known. -/
theorem runSimLoop_succ_eval (g : Sampler) (runs m month i : ℕ)
    (state : FinanceState) (act : Option String) (iNext : ℕ)
    (hch : chooseBestAction g i state runs = (act, iNext)) :
    runSimLoop g runs (m + 1) month i state =
      (let p := updateEconomy g iNext (applyActionChosen state act)
       let snap : MonthSnapshot :=
         { month := month, action := act, cash := p.1.cash,
           salary := p.1.salary, expenses := p.1.expenses,
           inflation := p.1.inflation, investment := p.1.investment,
           happiness := p.1.happiness }
       if p.1.cash ≤ 0 then [snap]
       else snap :: runSimLoop g runs m (month + 1) p.2 p.1) := by
  simp only [runSimLoop, hch]

/-- Helper: the full run from the bankrupt start emits exactly one
snapshot, recording the chosen action and the unchanged negative cash. -/
theorem runSimulation_bankrupt_eval :
    runSimulation zeroSampler 5 1 bankruptState =
      [{ month := 1, action := some "WORK_MORE", cash := -5, salary := 0,
         expenses := 0, inflation := 0, investment := 0, happiness := -5 }] := by
  show runSimLoop zeroSampler 1 (4 + 1) 1 0 bankruptState = _
  rw [runSimLoop_succ_eval _ _ _ _ _ _ _ _ chooseBestAction_bankrupt_eval]
  norm_num [applyActionChosen, applyAction_eval_work, bankruptState,
    updateEconomy, zeroSampler]

/-- Witness for C5: with the all-zero sampler, an already-bankrupt start
produces a single-snapshot history; that snapshot has non-positive cash
and index 0 is indeed the last index. -/
theorem runSimulation_length_le_bankrupt_last_witness :
    0 + 1 = (runSimulation zeroSampler 5 1 bankruptState).length :=
  (runSimulation_length_le_bankrupt_last zeroSampler 5 1 bankruptState).2 0
    { month := 1, action := some "WORK_MORE", cash := -5, salary := 0,
      expenses := 0, inflation := 0, investment := 0, happiness := -5 }
    (by rw [runSimulation_bankrupt_eval]; rfl)
    (by norm_num)

/-- A heap of JavaScript state objects: references are indices into the
list.  `JSON.parse(JSON.stringify(x))` allocates a fresh object holding a
value copy; in-place mutation writes through a reference.  This model
makes the aliasing behaviour of `forecastSurvival` explicit. -/
abbrev Store := List FinanceState

/-- The value returned when reading a dangling reference (never reached
under the well-formedness hypotheses used below). -/
def blankState : FinanceState :=
  { cash := 0, salary := 0, expenses := 0, inflation := 0,
    investment := 0, happiness := 0 }

/-- Dereference a state object. -/
def readRef (σ : Store) (r : ℕ) : FinanceState :=
  σ[r]?.getD blankState

/-- Mutate the state object behind a reference. -/
def writeRef (σ : Store) (r : ℕ) (s : FinanceState) : Store := List.set σ r s

/-- The in-place `updateEconomy(simState)` acting through a reference. -/
def updateEconomyRef (g : Sampler) (i : ℕ) (σ : Store) (r : ℕ) : Store × ℕ :=
  let p := updateEconomy g i (readRef σ r)
  (writeRef σ r p.1, p.2)

/-- The forecast month loop of `forecastSurvival` acting through a
reference to the scratch state. -/
def forecastStepsRef (g : Sampler) : ℕ → Store → ℕ → ℕ → Store × ℕ
  | 0, σ, _, i => (σ, i)
  | m + 1, σ, r, i =>
    let p := updateEconomyRef g i σ r
    if (readRef p.1 r).cash ≤ 0 then p else forecastStepsRef g m p.1 r p.2

/-- The trial loop of `forecastSurvival` acting on the store: each trial
allocates a fresh object holding a deep copy of the state behind `rCur`
(the `JSON` round-trip of line 178), applies the action and runs the
month loop through the fresh reference only.  Returns the store and the
(surviveCount, totalCash, counter) triple. -/
def forecastTrialsRef (g : Sampler) (rCur : ℕ) (action : String)
    (horizon : ℕ) : ℕ → Store → ℕ → ℕ → ℚ → Store × ℕ × ℚ × ℕ
  | 0, σ, i, surviveCount, totalCash => (σ, surviveCount, totalCash, i)
  | n + 1, σ, i, surviveCount, totalCash =>
    let rSim := σ.length
    let σ1 := σ ++ [readRef σ rCur]
    let σ2 := writeRef σ1 rSim (applyAction (readRef σ1 rSim) action)
    let p := forecastStepsRef g horizon σ2 rSim i
    if (readRef p.1 rSim).cash > 0 then
      forecastTrialsRef g rCur action horizon n p.1 p.2 (surviveCount + 1)
        (totalCash + (readRef p.1 rSim).cash)
    else
      forecastTrialsRef g rCur action horizon n p.1 p.2 surviveCount totalCash

/-- `forecastSurvival` acting on the store: the input state is passed by
reference `rCur`; the result is the forecast record, the final store and
the advanced counter. -/
def forecastSurvivalRef (g : Sampler) (i : ℕ) (σ : Store) (rCur : ℕ)
    (action : String) (runs horizon : ℕ) : ForecastResult × Store × ℕ :=
  let t := forecastTrialsRef g rCur action horizon runs σ i 0 0
  ({ survivalProbability := if runs = 0 then none
       else some ((t.2.1 : ℚ) / (runs : ℚ)),
     expectedCash := t.2.2.1 / (if t.2.1 = 0 then 1 else (t.2.1 : ℚ)) },
   t.1, t.2.2.2)

/-- Helper: reading back the reference just written. -/
theorem readRef_writeRef_self (σ : Store) (r : ℕ) (s : FinanceState)
    (h : r < σ.length) : readRef (writeRef σ r s) r = s := by
  simp only [readRef, writeRef]
  rw [List.getElem?_set_self h]
  rfl

/-- Helper: writing one reference does not change another. -/
theorem readRef_writeRef_ne (σ : Store) (r r2 : ℕ) (s : FinanceState)
    (h : r ≠ r2) : readRef (writeRef σ r s) r2 = readRef σ r2 := by
  simp only [readRef, writeRef]
  rw [List.getElem?_set_ne h]

/-- Helper: allocation at the end of the store does not change existing
references. -/
theorem readRef_append_lt (σ : Store) (x : FinanceState) (r : ℕ)
    (h : r < σ.length) : readRef (σ ++ [x]) r = readRef σ r := by
  simp only [readRef]
  rw [List.getElem?_append_left h]

/-- Helper: reading the freshly allocated reference. -/
theorem readRef_append_last (σ : Store) (x : FinanceState) :
    readRef (σ ++ [x]) σ.length = x := by
  simp only [readRef]
  rw [List.getElem?_concat_length]
  rfl

/-- Helper: writing back the value already behind a live reference is the
identity. -/
theorem writeRef_readRef_self (σ : Store) (r : ℕ) (h : r < σ.length) :
    writeRef σ r (readRef σ r) = σ := by
  apply List.ext_getElem?
  intro n
  by_cases hn : n = r
  · subst hn
    simp only [writeRef, readRef]
    rw [List.getElem?_set_self h, List.getElem?_eq_getElem h]
    rfl
  · simp only [writeRef]
    exact List.getElem?_set_ne fun hh => hn hh.symm

/-- Helper: the store-level month loop equals the pure month loop run on
the dereferenced state, written back through the same reference. -/
theorem forecastStepsRef_spec (g : Sampler) :
    ∀ (m : ℕ) (σ : Store) (r i : ℕ), r < σ.length →
      forecastStepsRef g m σ r i =
        (writeRef σ r (forecastSteps g m (readRef σ r) i).1,
         (forecastSteps g m (readRef σ r) i).2) := by
  intro m
  induction m with
  | zero =>
    intro σ r i h
    simp only [forecastStepsRef, forecastSteps]
    rw [writeRef_readRef_self σ r h]
  | succ mm ih =>
    intro σ r i h
    simp only [forecastStepsRef, forecastSteps, updateEconomyRef]
    rw [readRef_writeRef_self σ r _ h]
    by_cases hc : (updateEconomy g i (readRef σ r)).1.cash ≤ 0
    · rw [if_pos hc, if_pos hc]
    · rw [if_neg hc, if_neg hc]
      rw [ih (writeRef σ r (updateEconomy g i (readRef σ r)).1) r
        (updateEconomy g i (readRef σ r)).2 (by rw [writeRef, List.length_set]; exact h)]
      rw [readRef_writeRef_self σ r _ h]
      rw [writeRef, writeRef, writeRef, List.set_set]

/-- Helper: overwriting the freshly appended object keeps the store in
append form. -/
theorem writeRef_append_last (σ : Store) (a b : FinanceState) :
    writeRef (σ ++ [a]) σ.length b = σ ++ [b] := by
  apply List.ext_getElem?
  intro n
  rcases lt_trichotomy n σ.length with hn | hn | hn
  · rw [writeRef, List.getElem?_set_ne (Nat.ne_of_gt hn),
      List.getElem?_append_left hn, List.getElem?_append_left hn]
  · subst hn
    rw [writeRef, List.getElem?_set_self (by simp), List.getElem?_concat_length]
  · have h1 : (σ ++ [a]).length ≤ n := by simp; omega
    have h2 : (σ ++ [b]).length ≤ n := by simp; omega
    rw [writeRef, List.getElem?_set_ne (by omega), List.getElem?_eq_none h1,
      List.getElem?_eq_none h2]

/-- Helper: the store-level trial loop returns exactly the pure trial
accumulators computed from the value behind the input reference, never
writes through the input reference, and only grows the store. -/
theorem forecastTrialsRef_spec (g : Sampler) (rCur : ℕ) (action : String)
    (horizon : ℕ) :
    ∀ (n : ℕ) (σ : Store) (i sc : ℕ) (tc : ℚ), rCur < σ.length →
      (forecastTrialsRef g rCur action horizon n σ i sc tc).2 =
        forecastTrials g (readRef σ rCur) action horizon n i sc tc ∧
      readRef (forecastTrialsRef g rCur action horizon n σ i sc tc).1 rCur
        = readRef σ rCur ∧
      σ.length ≤ (forecastTrialsRef g rCur action horizon n σ i sc tc).1.length := by
  intro n
  induction n with
  | zero =>
    intro σ i sc tc h
    exact ⟨rfl, rfl, le_refl _⟩
  | succ m ih =>
    intro σ i sc tc h
    simp only [forecastTrialsRef, forecastTrials]
    rw [readRef_append_last, writeRef_append_last]
    rw [forecastStepsRef_spec g horizon
      (σ ++ [applyAction (readRef σ rCur) action]) σ.length i (by simp)]
    rw [readRef_append_last, writeRef_append_last]
    dsimp only
    rw [readRef_append_last]
    have hlt : rCur < (σ ++ [(forecastSteps g horizon
        (applyAction (readRef σ rCur) action) i).1]).length := by
      simp
      omega
    by_cases hc : (forecastSteps g horizon
        (applyAction (readRef σ rCur) action) i).1.cash > 0
    · rw [if_pos hc, if_pos hc]
      obtain ⟨ih1, ih2, ih3⟩ := ih
        (σ ++ [(forecastSteps g horizon
          (applyAction (readRef σ rCur) action) i).1])
        (forecastSteps g horizon (applyAction (readRef σ rCur) action) i).2
        (sc + 1)
        (tc + (forecastSteps g horizon
          (applyAction (readRef σ rCur) action) i).1.cash) hlt
      rw [readRef_append_lt σ _ rCur h] at ih1 ih2
      refine ⟨ih1, ih2, le_trans (by simp) ih3⟩
    · rw [if_neg hc, if_neg hc]
      obtain ⟨ih1, ih2, ih3⟩ := ih
        (σ ++ [(forecastSteps g horizon
          (applyAction (readRef σ rCur) action) i).1])
        (forecastSteps g horizon (applyAction (readRef σ rCur) action) i).2
        sc tc hlt
      rw [readRef_append_lt σ _ rCur h] at ih1 ih2
      refine ⟨ih1, ih2, le_trans (by simp) ih3⟩

/-- C8: for every sampler, store, input reference, action, run count and
horizon, the store-level `forecastSurvival` leaves the state behind the
caller's reference unchanged in every field, and its result record equals
the pure forecast computed from the value behind that reference — each
trial works on a deep, fully independent copy, so no trial's mutations
are visible in the input state or in sibling trials. -/
theorem forecastSurvivalRef_frame (g : Sampler) (i : ℕ) (σ : Store)
    (rCur : ℕ) (action : String) (runs horizon : ℕ) (h : rCur < σ.length) :
    readRef (forecastSurvivalRef g i σ rCur action runs horizon).2.1 rCur
      = readRef σ rCur ∧
    (forecastSurvivalRef g i σ rCur action runs horizon).1
      = (forecastSurvival g i (readRef σ rCur) action runs horizon).1 := by
  obtain ⟨h1, h2, _⟩ := forecastTrialsRef_spec g rCur action horizon runs σ i 0 0 h
  constructor
  · exact h2
  · simp only [forecastSurvivalRef, forecastSurvival, h1]

/-- Witness for C8: instantiated at the all-zero sampler, a one-object
store holding the default state, reference 0, the INVEST action, two runs
and horizon 3. -/
theorem forecastSurvivalRef_frame_witness :
    readRef (forecastSurvivalRef zeroSampler 0 [DEFAULT_STATE] 0 "INVEST"
        2 3).2.1 0 = readRef [DEFAULT_STATE] 0 ∧
    (forecastSurvivalRef zeroSampler 0 [DEFAULT_STATE] 0 "INVEST" 2 3).1
      = (forecastSurvival zeroSampler 0 (readRef [DEFAULT_STATE] 0) "INVEST"
          2 3).1 :=
  forecastSurvivalRef_frame zeroSampler 0 [DEFAULT_STATE] 0 "INVEST" 2 3
    (by simp)
